import Mathlib

/-!
Verification of the AWS RDS managed relational database lifecycle
(`perfkitbenchmarker/providers/aws/aws_relational_db.py`) against its
natural-language specification.

The Python class `AwsRelationalDb` is shallowly embedded: its mutable
attributes become the `DbState` structure, the cloud control plane becomes an
explicit `Provider` state together with an abstract command-execution
function, and every provider CLI invocation becomes a `Cmd` value recorded in
a trace.  Readiness polling is embedded as a function over an abstract
sequence of describe-call results.
-/

namespace AwsRdb

/-! ## Engine constants

Modelled from the spec: the engine-name constants live in
`sql_engine_utils.py`, which is not under `src/`; the values follow the AWS
engine names that the spec and the claims use. -/

def MYSQL : String := "mysql"

def POSTGRES : String := "postgres"

def SQLSERVER : String := "sqlserver"

def AURORA_MYSQL : String := "aurora-mysql"

def AURORA_MYSQL56 : String := "aurora"

def AURORA_POSTGRES : String := "aurora-postgresql"

def SQLSERVER_EXPRESS : String := "sqlserver-ex"

def SQLSERVER_STANDARD : String := "sqlserver-se"

def SQLSERVER_ENTERPRISE : String := "sqlserver-ee"

/-! ## Module-level constants of `aws_relational_db.py` -/

def DEFAULT_MYSQL_VERSION : String := "5.7.16"

def DEFAULT_POSTGRES_VERSION : String := "9.6.9"

def DEFAULT_MYSQL_AURORA_VERSION : String := "5.7.12"

def DEFAULT_MYSQL56_AURORA_VERSION : String := "5.6.10a"

def DEFAULT_POSTGRES_AURORA_VERSION : String := "9.6.9"

def DEFAULT_SQLSERVER_VERSION : String := "14.00.3223.3.v1"

def DEFAULT_MYSQL_PORT : Nat := 3306

def DEFAULT_POSTGRES_PORT : Nat := 5432

def DEFAULT_SQLSERVER_PORT : Nat := 1433

/-- `IS_READY_TIMEOUT = 60 * 60 * 1` (one hour), the readiness deadline. -/
def IS_READY_TIMEOUT : Nat := 60 * 60 * 1

/-- `_MAP_ENGINE_TO_DEFAULT_VERSION` from the source module. -/
def _MAP_ENGINE_TO_DEFAULT_VERSION : List (String × String) :=
  [(MYSQL, DEFAULT_MYSQL_VERSION),
   (AURORA_MYSQL, DEFAULT_MYSQL_AURORA_VERSION),
   (AURORA_MYSQL56, DEFAULT_MYSQL56_AURORA_VERSION),
   (POSTGRES, DEFAULT_POSTGRES_VERSION),
   (AURORA_POSTGRES, DEFAULT_POSTGRES_AURORA_VERSION),
   (SQLSERVER_EXPRESS, DEFAULT_SQLSERVER_VERSION),
   (SQLSERVER_STANDARD, DEFAULT_SQLSERVER_VERSION),
   (SQLSERVER_ENTERPRISE, DEFAULT_SQLSERVER_VERSION)]

/-- `_AURORA_ENGINES` from the source module. -/
def _AURORA_ENGINES : List String :=
  [AURORA_MYSQL56, AURORA_MYSQL, AURORA_POSTGRES]

/-- `_SQL_SERVER_ENGINES` from the source module. -/
def _SQL_SERVER_ENGINES : List String :=
  [SQLSERVER_EXPRESS, SQLSERVER_STANDARD, SQLSERVER_ENTERPRISE]

/-- `_RDS_ENGINES` from the source module. -/
def _RDS_ENGINES : List String :=
  [MYSQL, POSTGRES, SQLSERVER_EXPRESS, SQLSERVER_STANDARD,
   SQLSERVER_ENTERPRISE]

/-! ## Errors, commands, provider state -/

/-- The exceptions the embedded code can raise. -/
inductive PkbError where
  | calledProcessError
  | relationalDbEngineNotFound
  | exception (msg : String)
deriving DecidableEq, Repr

/-- A subnet object.  The client VM supplies one subnet
(`self.client_vm.network.subnet`); `_CreateSubnetInZone` constructs fresh
`AwsSubnet` objects, which are distinct from the client's. -/
inductive Subnet where
  | client
  | created (zone : String)
deriving DecidableEq, Repr

/-- The provider CLI invocations issued by `AwsRelationalDb`, abstracted from
their full argument strings (argument formatting is out of scope per spec
section 1). -/
inductive Cmd where
  | createSubnet (zone : String)
  | createDbSubnetGroup (name : String)
  | authorizeIngress (port : Nat)
  | createDbInstance (id : String)
  | createDbCluster (id : String)
  | modifyDbInstanceMultiAz (id : String)
  | describeDbInstances (id : String)
  | deleteDbInstance (id : String)
  | deleteDbCluster (id : String)
  | deleteDbSubnetGroup (name : Option String)
  | deleteSubnet (s : Subnet)
  | deleteDbParameterGroup (name : String)
  | disallowAllPorts
  | allowPort (port : Nat)
  | rebootForceFailover (id : String)
  | failoverDbCluster (cluster : Option String) (target : String)
deriving DecidableEq, Repr

/-- Exit status of one CLI invocation. -/
inductive CmdResult where
  | success
  | failure
deriving DecidableEq, Repr

/-- The cloud-side state: which RDS instances and clusters currently exist. -/
structure Provider where
  instances : List String
  clusters : List String
deriving DecidableEq, Repr

/-- Abstract provider behaviour: how a command changes the cloud state and
whether it exits zero.  Quantifying theorems over every `Exec` covers
arbitrary individual command failures. -/
abbrev Exec := Cmd → Provider → CmdResult × Provider

/-- Modelled from the spec: the command executor (`vm_util.IssueCommand`, not
under `src/`).  Per spec section 6 it "never raises for a non-zero exit unless
the flag requests it"; with `raise_on_failure=True` a failing command raises
`CalledProcessError`. -/
def issueCommand (exec : Exec) (c : Cmd) (raiseOnFailure : Bool)
    (w : Provider) : Except PkbError (CmdResult × Provider) :=
  let rw := exec c w
  if raiseOnFailure && rw.1 == CmdResult.failure then
    Except.error PkbError.calledProcessError
  else
    Except.ok rw

/-- The faithful provider semantics of the RDS delete commands: deleting an
existing instance or cluster removes it and exits zero; deleting a
nonexistent one exits nonzero and changes nothing. -/
def rdsExec : Exec := fun c w =>
  match c with
  | Cmd.deleteDbInstance i =>
      if i ∈ w.instances then
        (CmdResult.success,
         { w with instances := w.instances.filter (fun x => x ≠ i) })
      else (CmdResult.failure, w)
  | Cmd.deleteDbCluster cid =>
      if cid ∈ w.clusters then
        (CmdResult.success,
         { w with clusters := w.clusters.filter (fun x => x ≠ cid) })
      else (CmdResult.failure, w)
  | _ => (CmdResult.success, w)

/-- An executor on which every command fails; used to exercise the
best-effort deletion paths. -/
def execAllFail : Exec := fun _ w => (CmdResult.failure, w)

/-! ## The database object state (`AwsRelationalDb.__init__`) -/

/-- The mutable attributes of an `AwsRelationalDb` object that the lifecycle
operations read and write. -/
structure DbState where
  runUri : String
  isManagedDb : Bool
  engine : String
  highAvailability : Bool
  zones : List String
  instanceId : String
  clusterId : Option String
  allInstanceIds : List String
  unmanagedDbExists : Option Bool
  hasFirewall : Bool
  parameterGroup : Option String
  dbSubnetGroupName : Option String
  subnetsUsedByDb : List Subnet
  subnetsOwnedByDb : List Subnet
deriving DecidableEq, Repr

/-- `AwsRelationalDb.__init__`: the state of a freshly constructed database
object (nothing provisioned yet). -/
def initialDb (runUri engine : String) (highAvailability : Bool)
    (zones : List String) (isManagedDb : Bool) : DbState :=
  { runUri := runUri
    isManagedDb := isManagedDb
    engine := engine
    highAvailability := highAvailability
    zones := zones
    instanceId := "pkb-db-instance-" ++ runUri
    clusterId := none
    allInstanceIds := []
    unmanagedDbExists := if isManagedDb then none else some false
    hasFirewall := false
    parameterGroup := none
    dbSubnetGroupName := none
    subnetsUsedByDb := []
    subnetsOwnedByDb := [] }

/-! ## `_Delete` -/

/-- The `for current_instance_id in self.all_instance_ids` loop of
`_Delete`: each `delete-db-instance` is issued with
`raise_on_failure=False`.  Returns the provider state and the issued
commands. -/
def deleteInstancesLoop (exec : Exec) (ids : List String) (w : Provider) :
    Except PkbError (Provider × List Cmd) :=
  match ids with
  | [] => Except.ok (w, [])
  | i :: rest => do
      let rw ← issueCommand exec (Cmd.deleteDbInstance i) false w
      let pr ← deleteInstancesLoop exec rest rw.2
      Except.ok (pr.1, Cmd.deleteDbInstance i :: pr.2)

/-- `AwsRelationalDb._Delete`.  Unmanaged branch: disallow the firewall ports
if a firewall was created, mark the unmanaged database as gone, and return.
Managed branch: issue `delete-db-instance` for every recorded instance id,
then `delete-db-cluster` if a cluster was created — all with
`raise_on_failure=False`. -/
def awsDelete (exec : Exec) (db : DbState) (w : Provider) :
    Except PkbError (DbState × Provider × List Cmd) :=
  if db.isManagedDb = false then
    Except.ok ({ db with unmanagedDbExists := some false }, w,
      if db.hasFirewall then [Cmd.disallowAllPorts] else [])
  else do
    let pr ← deleteInstancesLoop exec db.allInstanceIds w
    match db.clusterId with
    | some cid => do
        let rw ← issueCommand exec (Cmd.deleteDbCluster cid) false pr.1
        Except.ok (db, rw.2, pr.2 ++ [Cmd.deleteDbCluster cid])
    | none => Except.ok (db, pr.1, pr.2)

/-- The commands `_Delete` issues, as a pure function of the object state
(it does not depend on any command's outcome, because every command is
issued with `raise_on_failure=False`). -/
def awsDeleteTrace (db : DbState) : List Cmd :=
  if db.isManagedDb = false then
    if db.hasFirewall then [Cmd.disallowAllPorts] else []
  else
    db.allInstanceIds.map Cmd.deleteDbInstance ++
      (match db.clusterId with
       | some cid => [Cmd.deleteDbCluster cid]
       | none => [])

/-- "The underlying resource does not exist": for a managed database, none of
its recorded instance or cluster identifiers exist at the provider; for an
unmanaged one, the bookkeeping flag already records it as gone. -/
def resourceAbsent (db : DbState) (w : Provider) : Prop :=
  if db.isManagedDb then
    (∀ i ∈ db.allInstanceIds, i ∉ w.instances) ∧
      (∀ cid ∈ db.clusterId.toList, cid ∉ w.clusters)
  else db.unmanagedDbExists = some false

instance (db : DbState) (w : Provider) : Decidable (resourceAbsent db w) := by
  unfold resourceAbsent
  infer_instance

/-- Whether an `Except` computation returned normally. -/
def isOkExcept {ε α : Type} : Except ε α → Bool
  | Except.ok _ => true
  | Except.error _ => false

/-! ## `_DescribeInstance` and `_Exists` -/

/-- The possible results of `_DescribeInstance` as seen by its callers:
`fail` is the `None` returned when the CLI exits nonzero (e.g. instance not
found); `malformed` is JSON that is present but from which the status fields
cannot be read (the `except:` branch of `_IsInstanceReady`); `status`
carries `DBInstanceStatus`, the truthiness of `PendingModifiedValues`, and
whether `ParameterApplyStatus == 'applying'`. -/
inductive DescribeResult where
  | fail
  | malformed
  | status (state : String) (pendingValues : Bool) (applyingParam : Bool)
deriving DecidableEq, Repr

/-- The `for current_instance_id in self.all_instance_ids` loop of
`_Exists`: returns `false` at the first id whose describe call returns
`None`, and `true` once the loop finishes (vacuously `true` on an empty
list). -/
def existsLoop (describe : String → DescribeResult) :
    List String → Bool
  | [] => true
  | i :: rest =>
      match describe i with
      | DescribeResult.fail => false
      | _ => existsLoop describe rest

/-- `AwsRelationalDb._Exists`.  Unmanaged branch: returns
`self.unmanaged_db_exists` (truthy only when `True`; it is `False` from
`__init__` on, so `None` never reaches a caller).  Managed branch: the
describe loop over `all_instance_ids`. -/
def awsExists (db : DbState) (describe : String → DescribeResult) : Bool :=
  if db.isManagedDb = false then db.unmanagedDbExists == some true
  else existsLoop describe db.allInstanceIds

/-- The describe behaviour induced by a provider state: a recorded instance
describes successfully, an absent one makes the CLI exit nonzero so
`_DescribeInstance` returns `None`. -/
def describeOfProvider (w : Provider) : String → DescribeResult :=
  fun i =>
    if i ∈ w.instances then DescribeResult.status "available" false false
    else DescribeResult.fail

/-! ## Lemmas about `_Delete` -/

theorem issueCommand_false (exec : Exec) (c : Cmd) (w : Provider) :
    issueCommand exec c false w = Except.ok (exec c w) := rfl

theorem exceptBind_ok {ε α β : Type} (x : α) (f : α → Except ε β) :
    (Except.ok x : Except ε α) >>= f = f x := rfl

/-- The provider state after the `_Delete` instance loop, as a fold. -/
def deleteInstancesProvider (exec : Exec) (ids : List String)
    (w : Provider) : Provider :=
  ids.foldl (fun w i => (exec (Cmd.deleteDbInstance i) w).2) w

theorem deleteInstancesLoop_eq (exec : Exec) :
    ∀ (ids : List String) (w : Provider),
    deleteInstancesLoop exec ids w =
      Except.ok (deleteInstancesProvider exec ids w,
        ids.map Cmd.deleteDbInstance) := by
  intro ids
  induction ids with
  | nil => intro w; rfl
  | cons i rest ih =>
      intro w
      simp only [deleteInstancesLoop, issueCommand_false, ih]
      rfl

theorem rdsExec_deleteInstance_clusters (i : String) (w : Provider) :
    ((rdsExec (Cmd.deleteDbInstance i) w).2).clusters = w.clusters := by
  by_cases h : i ∈ w.instances <;> simp [rdsExec, h]

theorem rdsExec_deleteInstance_not_mem (i : String) (w : Provider) :
    i ∉ ((rdsExec (Cmd.deleteDbInstance i) w).2).instances := by
  by_cases h : i ∈ w.instances
  · simp [rdsExec, h]
  · simp [rdsExec, h]

theorem rdsExec_deleteInstance_mono (i x : String) (w : Provider)
    (hx : x ∈ ((rdsExec (Cmd.deleteDbInstance i) w).2).instances) :
    x ∈ w.instances := by
  by_cases h : i ∈ w.instances
  · simp [rdsExec, h] at hx
    exact hx.1
  · simpa [rdsExec, h] using hx

theorem rdsExec_deleteInstance_absent (i : String) (w : Provider)
    (h : i ∉ w.instances) :
    (rdsExec (Cmd.deleteDbInstance i) w).2 = w := by
  simp [rdsExec, h]

theorem deleteInstancesProvider_clusters (ids : List String) :
    ∀ w : Provider,
    (deleteInstancesProvider rdsExec ids w).clusters = w.clusters := by
  induction ids with
  | nil => intro w; rfl
  | cons i rest ih =>
      intro w
      simp only [deleteInstancesProvider, List.foldl_cons] at *
      rw [ih]
      exact rdsExec_deleteInstance_clusters i w

theorem deleteInstancesProvider_mono (ids : List String) :
    ∀ (w : Provider) (x : String),
    x ∈ (deleteInstancesProvider rdsExec ids w).instances →
    x ∈ w.instances := by
  induction ids with
  | nil => intro w x hx; exact hx
  | cons i rest ih =>
      intro w x hx
      simp only [deleteInstancesProvider, List.foldl_cons] at *
      exact rdsExec_deleteInstance_mono i x w (ih _ x hx)

theorem deleteInstancesProvider_removes (ids : List String) :
    ∀ (w : Provider) (i : String), i ∈ ids →
    i ∉ (deleteInstancesProvider rdsExec ids w).instances := by
  induction ids with
  | nil => intro w i h; cases h
  | cons j rest ih =>
      intro w i h
      simp only [deleteInstancesProvider, List.foldl_cons]
      rcases List.mem_cons.mp h with h | h
      · subst h
        intro hmem
        exact rdsExec_deleteInstance_not_mem i w
          (deleteInstancesProvider_mono rest _ i hmem)
      · exact ih _ i h

theorem deleteInstancesProvider_absent (ids : List String) :
    ∀ w : Provider, (∀ i ∈ ids, i ∉ w.instances) →
    deleteInstancesProvider rdsExec ids w = w := by
  induction ids with
  | nil => intro w _; rfl
  | cons i rest ih =>
      intro w h
      simp only [deleteInstancesProvider, List.foldl_cons] at *
      rw [rdsExec_deleteInstance_absent i w (h i (List.mem_cons_self i rest))]
      exact ih w (fun j hj => h j (List.mem_cons_of_mem i hj))

theorem rdsExec_deleteCluster_instances (c : String) (w : Provider) :
    ((rdsExec (Cmd.deleteDbCluster c) w).2).instances = w.instances := by
  by_cases h : c ∈ w.clusters <;> simp [rdsExec, h]

theorem rdsExec_deleteCluster_not_mem (c : String) (w : Provider) :
    c ∉ ((rdsExec (Cmd.deleteDbCluster c) w).2).clusters := by
  by_cases h : c ∈ w.clusters
  · simp [rdsExec, h]
  · simp [rdsExec, h]

theorem rdsExec_deleteCluster_absent (c : String) (w : Provider)
    (h : c ∉ w.clusters) :
    (rdsExec (Cmd.deleteDbCluster c) w).2 = w := by
  simp [rdsExec, h]

/-- The object state after `_Delete`: only the unmanaged branch mutates the
object (it marks `unmanaged_db_exists = False`). -/
def awsDeleteDbState (db : DbState) : DbState :=
  if db.isManagedDb = false then { db with unmanagedDbExists := some false }
  else db

/-- The provider state after `_Delete`. -/
def awsDeleteProvider (exec : Exec) (db : DbState) (w : Provider) :
    Provider :=
  if db.isManagedDb = false then w
  else
    let w1 := deleteInstancesProvider exec db.allInstanceIds w
    match db.clusterId with
    | some cid => (exec (Cmd.deleteDbCluster cid) w1).2
    | none => w1

/-- `_Delete` always returns normally, with a trace that does not depend on
any command's outcome: every provider command in it is issued with
`raise_on_failure=False`. -/
theorem awsDelete_eq (exec : Exec) (db : DbState) (w : Provider) :
    awsDelete exec db w =
      Except.ok (awsDeleteDbState db, awsDeleteProvider exec db w,
        awsDeleteTrace db) := by
  by_cases h : db.isManagedDb = false
  · simp [awsDelete, awsDeleteDbState, awsDeleteProvider, awsDeleteTrace, h]
  · cases hc : db.clusterId with
    | none =>
        simp [awsDelete, awsDeleteDbState, awsDeleteProvider,
          awsDeleteTrace, h, hc, deleteInstancesLoop_eq, exceptBind_ok]
    | some cid =>
        simp [awsDelete, awsDeleteDbState, awsDeleteProvider,
          awsDeleteTrace, h, hc, deleteInstancesLoop_eq, issueCommand_false,
          exceptBind_ok]

theorem setUnmanagedGone_eta (db : DbState)
    (h : db.unmanagedDbExists = some false) :
    { db with unmanagedDbExists := some false } = db := by
  cases db
  simp_all

/-- When none of the database's recorded identifiers exist at the provider,
`_Delete` is a no-op: every delete command fails, nothing raises, nothing
changes. -/
theorem awsDelete_noop (db : DbState) (w : Provider)
    (h : resourceAbsent db w) :
    awsDelete rdsExec db w = Except.ok (db, w, awsDeleteTrace db) := by
  rw [awsDelete_eq]
  by_cases hm : db.isManagedDb = false
  · unfold resourceAbsent at h
    rw [if_neg (by simp [hm])] at h
    have h1 : awsDeleteDbState db = db := by
      unfold awsDeleteDbState
      rw [if_pos hm]
      exact setUnmanagedGone_eta db h
    have h2 : awsDeleteProvider rdsExec db w = w := by
      simp [awsDeleteProvider, hm]
    rw [h1, h2]
  · have hm' : db.isManagedDb = true := by
      cases hb : db.isManagedDb
      · exact absurd hb hm
      · rfl
    unfold resourceAbsent at h
    rw [if_pos (by simp [hm'])] at h
    have hinst := deleteInstancesProvider_absent db.allInstanceIds w h.1
    unfold awsDeleteDbState awsDeleteProvider
    rw [if_neg hm, if_neg hm]
    cases hc : db.clusterId with
    | none => simp [hinst]
    | some cid =>
        have hcl : cid ∉ w.clusters := h.2 cid (by simp [hc])
        simp [hinst, rdsExec_deleteCluster_absent cid w hcl]

/-- After `_Delete` has run once, none of the database's identifiers remain
at the provider. -/
theorem resourceAbsent_after (db : DbState) (w : Provider)
    (hm : db.isManagedDb = true) :
    resourceAbsent db (awsDeleteProvider rdsExec db w) := by
  unfold resourceAbsent
  rw [if_pos (by simp [hm])]
  unfold awsDeleteProvider
  rw [if_neg (by simp [hm])]
  cases hc : db.clusterId with
  | none =>
      refine ⟨fun i hi => deleteInstancesProvider_removes _ _ i hi, ?_⟩
      intro cid hcid
      simp [hc] at hcid
  | some cid =>
      constructor
      · intro i hi
        rw [rdsExec_deleteCluster_instances]
        exact deleteInstancesProvider_removes _ _ i hi
      · intro c hcmem
        simp [hc] at hcmem
        subst hcmem
        exact rdsExec_deleteCluster_not_mem _ _

/-- C1: `delete()` is idempotent.  For every database object and every
provider state: (1) `_Delete` returns normally under arbitrary provider
behaviour (no exception escapes, because every provider command is issued
with `raise_on_failure=False`); (2) when the underlying resource does not
exist — already deleted, or never successfully created — `_Delete` succeeds
as a no-op, changing neither the object nor the provider; (3) running
`_Delete` a second time from the state the first call produced returns
normally and reproduces exactly the same end state (deleted). -/
theorem delete_idempotent : ∀ (db : DbState) (w : Provider),
    (∀ exec : Exec, isOkExcept (awsDelete exec db w) = true) ∧
    (resourceAbsent db w →
      awsDelete rdsExec db w = Except.ok (db, w, awsDeleteTrace db)) ∧
    (∀ out, awsDelete rdsExec db w = Except.ok out →
      awsDelete rdsExec out.1 out.2.1 = Except.ok out) := by
  intro db w
  refine ⟨fun exec => by rw [awsDelete_eq]; rfl, awsDelete_noop db w, ?_⟩
  intro out hout
  rw [awsDelete_eq] at hout
  cases hout
  by_cases hm : db.isManagedDb = false
  · have h1 : awsDeleteDbState db = { db with unmanagedDbExists := some false } := by
      simp [awsDeleteDbState, hm]
    have h2 : awsDeleteProvider rdsExec db w = w := by
      simp [awsDeleteProvider, hm]
    rw [awsDelete_eq]
    simp only [h1, h2]
    have h3 : awsDeleteDbState { db with unmanagedDbExists := some false } =
        { db with unmanagedDbExists := some false } := by
      have he := setUnmanagedGone_eta { db with unmanagedDbExists := some false } rfl
      simp [awsDeleteDbState, hm, he]
    have h4 : awsDeleteTrace { db with unmanagedDbExists := some false } =
        awsDeleteTrace db := by
      simp [awsDeleteTrace, hm]
    have h5 : awsDeleteProvider rdsExec
        { db with unmanagedDbExists := some false } w = w := by
      simp [awsDeleteProvider, hm]
    rw [h3, h4, h5]
  · have hm' : db.isManagedDb = true := by
      cases hb : db.isManagedDb
      · exact absurd hb hm
      · rfl
    have h1 : awsDeleteDbState db = db := by simp [awsDeleteDbState, hm]
    rw [h1]
    exact awsDelete_noop db _ (resourceAbsent_after db w hm')

/-- A managed database object as it stands after a successful RDS `_Create`:
one recorded instance identifier. -/
def provisionedManagedDb : DbState :=
  { initialDb "run0" MYSQL false ["us-east-1a"] true with
    allInstanceIds := ["pkb-db-instance-run0"] }

theorem delete_idempotent_witness :
    awsDelete rdsExec provisionedManagedDb
        { instances := [], clusters := [] } =
      Except.ok (provisionedManagedDb, { instances := [], clusters := [] },
        [Cmd.deleteDbInstance "pkb-db-instance-run0"]) :=
  (delete_idempotent provisionedManagedDb
    { instances := [], clusters := [] }).2.1 (by decide)

/-! ## C2: `_Exists` -/

/-- A managed database object exactly as `__init__` leaves it, before
`create()` has ever been invoked: `all_instance_ids` is empty. -/
def preCreateManagedDb : DbState :=
  initialDb "run0" MYSQL false ["us-east-1a"] true

/-- C2 counterexample: the claim says `exists()` returns false when called
before `create()`, for every resource.  But for a managed database the
describe loop of `_Exists` runs over the empty `all_instance_ids` list and
falls through to `return True`: called before `create()` — even against a
provider that holds nothing, so every describe would fail — `_Exists`
returns `True`, not `False`. -/
theorem exists_before_create_counterexample :
    awsExists preCreateManagedDb (fun _ => DescribeResult.fail) = true := by
  rfl

/-- C2 (amended): `exists()` never raises for "not found" and is
side-effect-free (it is a pure query of the describe results); for an
unmanaged database it returns false before `create()`; for a managed
database whose creation recorded instance ids it returns false once the
provider no longer knows those ids — in particular after `delete()`; and
after `delete()` of an unmanaged database it returns false.  However, for a
managed database called before `create()` (no instance ids recorded) it
returns true, not false. -/
theorem exists_spec : ∀ (runUri engine : String) (ha : Bool)
    (zones : List String) (db : DbState)
    (describe : String → DescribeResult) (w : Provider),
    awsExists (initialDb runUri engine ha zones false) describe = false ∧
    awsExists (initialDb runUri engine ha zones true) describe = true ∧
    (db.isManagedDb = true → db.allInstanceIds ≠ [] →
      (∀ i ∈ db.allInstanceIds, describe i = DescribeResult.fail) →
      awsExists db describe = false) ∧
    (∀ out, awsDelete rdsExec db w = Except.ok out →
      (db.isManagedDb = true → db.allInstanceIds ≠ [] →
        awsExists out.1 (describeOfProvider out.2.1) = false) ∧
      (db.isManagedDb = false → awsExists out.1 describe = false)) := by
  intro runUri engine ha zones db describe w
  refine ⟨by simp [awsExists, initialDb], by simp [awsExists, initialDb, existsLoop], ?_, ?_⟩
  · intro hm hne hall
    unfold awsExists
    rw [if_neg (by simp [hm])]
    cases hids : db.allInstanceIds with
    | nil => exact absurd hids hne
    | cons i rest =>
        have : describe i = DescribeResult.fail :=
          hall i (by rw [hids]; exact List.mem_cons_self i rest)
        simp [existsLoop, this]
  · intro out hout
    rw [awsDelete_eq] at hout
    cases hout
    constructor
    · intro hm hne
      have habs := resourceAbsent_after db w hm
      unfold resourceAbsent at habs
      rw [if_pos (by simp [hm])] at habs
      have h1 : awsDeleteDbState db = db := by simp [awsDeleteDbState, hm]
      rw [h1]
      unfold awsExists
      rw [if_neg (by simp [hm])]
      cases hids : db.allInstanceIds with
      | nil => exact absurd hids hne
      | cons i rest =>
          have hnot : i ∉ (awsDeleteProvider rdsExec db w).instances :=
            habs.1 i (by rw [hids]; exact List.mem_cons_self i rest)
          simp [existsLoop, describeOfProvider, hnot]
    · intro hm
      have h1 : awsDeleteDbState db = { db with unmanagedDbExists := some false } := by
        simp [awsDeleteDbState, hm]
      rw [h1]
      simp [awsExists, hm]

/-- A managed database whose single instance has been deleted from the
provider. -/
def postDeleteManagedDb : DbState := provisionedManagedDb

theorem exists_spec_witness :
    awsExists postDeleteManagedDb (fun _ => DescribeResult.fail) = false :=
  (exists_spec "run0" MYSQL false ["us-east-1a"] postDeleteManagedDb
      (fun _ => DescribeResult.fail)
      { instances := [], clusters := [] }).2.2.1
    rfl (by decide) (fun _ _ => rfl)

/-! ## `_IsInstanceReady`: the readiness polling loop

The `while True` loop of `_IsInstanceReady` is embedded over an abstract
sequence `resp : Nat → DescribeResult` of describe-call results: `resp k` is
what the k-th poll observes.  Each iteration ends in `time.sleep(5)` and the
loop checks `(now - start).seconds >= timeout` before polling, so the k-th
poll happens at elapsed time `5 * k`.  The loop terminates at the latest at
the first `k` with `5 * k ≥ timeout`, i.e. after at most `timeout + 1`
iterations; the recursion below carries that iteration count as structural
fuel, whose zero case is unreachable from the entry point
`isInstanceReady`. -/

/-- The loop body of `_IsInstanceReady`: deadline check, then describe.  A
`None` describe result (`fail`) just sleeps and repolls; an unreadable
response (`malformed`, the `except:` branch) logs and returns `False`;
a well-formed status breaks out with `True` exactly when the state is
`'available'` with no `PendingModifiedValues` and no parameter apply in
`'applying'`, and otherwise sleeps and repolls. -/
def isInstanceReadyAux (resp : Nat → DescribeResult) (timeout : Nat) :
    Nat → Nat → Bool
  | _, 0 => false
  | k, fuel + 1 =>
      if 5 * k ≥ timeout then false
      else
        match resp k with
        | DescribeResult.fail => isInstanceReadyAux resp timeout (k + 1) fuel
        | DescribeResult.malformed => false
        | DescribeResult.status s pv ap =>
            if s == "available" && !pv && !ap then true
            else isInstanceReadyAux resp timeout (k + 1) fuel

/-- `AwsRelationalDb._IsInstanceReady(instance_id, timeout)`, as a function
of the describe-result sequence for that instance. -/
def isInstanceReady (resp : Nat → DescribeResult) (timeout : Nat) : Bool :=
  isInstanceReadyAux resp timeout 0 (timeout + 1)

/-- `state == 'available' and not pending_values and not waiting_param`:
whether one describe result reports the instance ready. -/
def statusPollOk : DescribeResult → Bool
  | DescribeResult.status s pv ap => s == "available" && !pv && !ap
  | _ => false

/-- A describe result that is a well-formed status but not ready. -/
def isNonReadyStatus : DescribeResult → Bool
  | DescribeResult.status s pv ap => !(s == "available" && !pv && !ap)
  | _ => false

/-- Describe results on which the loop just sleeps and repolls: a failed
describe call, or a well-formed non-ready status. -/
def benignNotReady : DescribeResult → Bool
  | DescribeResult.fail => true
  | DescribeResult.malformed => false
  | DescribeResult.status s pv ap => !(s == "available" && !pv && !ap)

/-- The managed branch of `AwsRelationalDb._IsReady`: `False` when no
instance ids were recorded, otherwise every recorded instance must poll
ready (the source returns `False` at the first instance that does not). -/
def isReadyManaged (ids : List String)
    (dresp : String → Nat → DescribeResult) (timeout : Nat) : Bool :=
  if ids.isEmpty then false
  else ids.all (fun i => isInstanceReady (dresp i) timeout)

theorem statusPollOk_status (s : String) (pv ap : Bool) :
    statusPollOk (DescribeResult.status s pv ap) =
      (s == "available" && !pv && !ap) := rfl

theorem benignNotReady_of_nonReady (r : DescribeResult)
    (h : isNonReadyStatus r = true) : benignNotReady r = true := by
  cases r <;> simp_all [isNonReadyStatus, benignNotReady]

theorem not_benign_of_pollOk (r : DescribeResult)
    (h : statusPollOk r = true) : benignNotReady r = false := by
  cases r <;> simp_all [statusPollOk, benignNotReady]

/-- If every poll inside the deadline reports non-ready, the loop returns
`false` — by timeout, or early `false` on a malformed response. -/
theorem isInstanceReadyAux_false (resp : Nat → DescribeResult)
    (timeout : Nat)
    (hall : ∀ m, 5 * m < timeout → statusPollOk (resp m) = false) :
    ∀ (fuel k : Nat), isInstanceReadyAux resp timeout k fuel = false := by
  intro fuel
  induction fuel with
  | zero => intro k; rfl
  | succ fuel ih =>
      intro k
      unfold isInstanceReadyAux
      by_cases hk : 5 * k ≥ timeout
      · rw [if_pos hk]
      · rw [if_neg hk]
        have hlt : 5 * k < timeout := Nat.lt_of_not_le hk
        cases hr : resp k with
        | fail => exact ih (k + 1)
        | malformed => rfl
        | status s pv ap =>
            have hp := hall k hlt
            rw [hr, statusPollOk_status] at hp
            show (if (s == "available" && !pv && !ap) = true then true
                  else isInstanceReadyAux resp timeout (k + 1) fuel) = false
            have hcond : ¬ ((s == "available" && !pv && !ap) = true) := by
              simp [hp]
            rw [if_neg hcond]
            exact ih (k + 1)

/-- Running the loop from poll index `k0`: if polls `k0 ≤ j < k0 + d` are
benign (failed describe or non-ready status) and poll `k0 + d` is decisive
(ready, or malformed) and within the deadline, the loop's answer is that
poll's readiness value. -/
theorem isInstanceReadyAux_outcome : ∀ (d : Nat)
    (resp : Nat → DescribeResult) (timeout fuel k0 : Nat),
    5 * (k0 + d) < timeout →
    benignNotReady (resp (k0 + d)) = false →
    (∀ j, k0 ≤ j → j < k0 + d → benignNotReady (resp j) = true) →
    d < fuel →
    isInstanceReadyAux resp timeout k0 fuel = statusPollOk (resp (k0 + d)) := by
  intro d
  induction d with
  | zero =>
      intro resp timeout fuel k0 hlt hdec _ hfuel
      simp only [Nat.add_zero] at hlt hdec ⊢
      cases fuel with
      | zero => omega
      | succ fuel =>
          unfold isInstanceReadyAux
          rw [if_neg (by omega)]
          cases hr : resp k0 with
          | fail =>
              rw [hr] at hdec
              simp [benignNotReady] at hdec
          | malformed => rfl
          | status s pv ap =>
              rw [hr] at hdec
              simp only [benignNotReady, Bool.not_eq_false'] at hdec
              show (if (s == "available" && !pv && !ap) = true then true
                    else isInstanceReadyAux resp timeout (k0 + 1) fuel) =
                  statusPollOk (DescribeResult.status s pv ap)
              rw [if_pos hdec, statusPollOk_status, hdec]
  | succ d ih =>
      intro resp timeout fuel k0 hlt hdec hpre hfuel
      cases fuel with
      | zero => omega
      | succ fuel =>
          have hben : benignNotReady (resp k0) = true :=
            hpre k0 (Nat.le_refl k0) (by omega)
          have harith : k0 + 1 + d = k0 + (d + 1) := by omega
          have hrest : isInstanceReadyAux resp timeout (k0 + 1) fuel =
              statusPollOk (resp (k0 + (d + 1))) := by
            rw [← harith]
            exact ih resp timeout fuel (k0 + 1) (by omega)
              (by rw [harith]; exact hdec)
              (fun j h1 h2 => hpre j (by omega) (by omega)) (by omega)
          unfold isInstanceReadyAux
          rw [if_neg (by omega)]
          cases hr : resp k0 with
          | fail => exact hrest
          | malformed =>
              rw [hr] at hben
              simp [benignNotReady] at hben
          | status s pv ap =>
              rw [hr] at hben
              simp only [benignNotReady, Bool.not_eq_true'] at hben
              show (if (s == "available" && !pv && !ap) = true then true
                    else isInstanceReadyAux resp timeout (k0 + 1) fuel) =
                  statusPollOk (resp (k0 + (d + 1)))
              have hcond : ¬ ((s == "available" && !pv && !ap) = true) := by
                simp [hben]
              rw [if_neg hcond]
              exact hrest

/-- C3: `_IsInstanceReady` polls at a fixed 5-second interval (poll `k`
happens at elapsed time `5 * k`, and the loop sleeps 5 s between polls).
For every sequence of provider statuses: (1) if every poll inside the
deadline reports a non-ready status, the loop returns `false` — a boolean,
not an exception — once the deadline elapses; (2) the loop returns `true`
at the first poll whose status is `'available'` with no pending
modifications, when every earlier poll reported a well-formed non-ready
status; (3) the managed branch of `_IsReady` is exactly this per-instance
poll applied to every recorded instance id. -/
theorem isReady_polling_spec : ∀ (resp : Nat → DescribeResult)
    (timeout : Nat),
    ((∀ k, 5 * k < timeout → statusPollOk (resp k) = false) →
      isInstanceReady resp timeout = false) ∧
    (∀ k, 5 * k < timeout → statusPollOk (resp k) = true →
      (∀ j, j < k → isNonReadyStatus (resp j) = true) →
      isInstanceReady resp timeout = true) ∧
    (∀ (ids : List String) (dresp : String → Nat → DescribeResult),
      isReadyManaged ids dresp timeout =
        (!ids.isEmpty && ids.all (fun i => isInstanceReady (dresp i) timeout))) := by
  intro resp timeout
  refine ⟨?_, ?_, ?_⟩
  · intro hall
    exact isInstanceReadyAux_false resp timeout hall (timeout + 1) 0
  · intro k hlt hok hpre
    have h := isInstanceReadyAux_outcome k resp timeout (timeout + 1) 0
      (by omega) (by simpa using not_benign_of_pollOk _ hok)
      (fun j _ hj => benignNotReady_of_nonReady _ (hpre j (by omega)))
      (by omega)
    unfold isInstanceReady
    rw [h]
    simpa using hok
  · intro ids dresp
    cases h : ids.isEmpty <;> simp [isReadyManaged, h]

theorem isReady_polling_spec_witness :
    isInstanceReady (fun _ => DescribeResult.status "available" false false)
      6 = true :=
  (isReady_polling_spec
      (fun _ => DescribeResult.status "available" false false) 6).2.1
    0 (by decide) (by decide) (fun j hj => absurd hj (Nat.not_lt_zero j))

/-! ## C4: flaky describe calls during polling -/

/-- A describe sequence whose very first poll returns JSON that cannot be
read, with the provider available (and far inside the deadline) from the
second poll on. -/
def flakyResp : Nat → DescribeResult := fun k =>
  if k = 0 then DescribeResult.malformed
  else DescribeResult.status "available" false false

/-- C4 counterexample: the claim says a status-query failure — "the
describe call failing or its response being unreadable" — is treated as
not-ready-yet and polling continues until the deadline, so a single flaky
status call never by itself makes `isReady` report failure.  But on a
response that is present yet unreadable, `_IsInstanceReady`'s `except:`
branch returns `False` immediately: with one malformed response at poll 0
and the provider available from poll 1 (elapsed 5 s, deadline 3600 s), the
wait reports failure. -/
theorem flaky_poll_counterexample :
    isInstanceReady flakyResp IS_READY_TIMEOUT = false ∧
    statusPollOk (flakyResp 1) = true ∧ 5 * 1 < IS_READY_TIMEOUT := by
  refine ⟨by rfl, by decide, by decide⟩

/-- C4 (amended): during readiness polling a describe-call *failure* (CLI
exits nonzero, `_DescribeInstance` returns `None`) is treated as "not ready
yet" and polling continues — any number of such flaky calls before the
provider reports ready never by themselves make the wait report failure;
but a describe response that is present yet *unreadable* (its status fields
cannot be parsed) is fatal: `_IsInstanceReady` logs and returns `false`
immediately rather than continuing until the deadline. -/
theorem describe_failure_handling : ∀ (resp : Nat → DescribeResult)
    (timeout k : Nat),
    5 * k < timeout → (∀ j, j < k → resp j = DescribeResult.fail) →
    ((statusPollOk (resp k) = true → isInstanceReady resp timeout = true) ∧
     (resp k = DescribeResult.malformed →
       isInstanceReady resp timeout = false)) := by
  intro resp timeout k hlt hpre
  constructor
  · intro hok
    have h := isInstanceReadyAux_outcome k resp timeout (timeout + 1) 0
      (by omega) (by simpa using not_benign_of_pollOk _ hok)
      (fun j _ hj => by rw [hpre j (by omega)]; rfl) (by omega)
    unfold isInstanceReady
    rw [h]
    simpa using hok
  · intro hmal
    have h := isInstanceReadyAux_outcome k resp timeout (timeout + 1) 0
      (by omega) (by simp [hmal, benignNotReady])
      (fun j _ hj => by rw [hpre j (by omega)]; rfl) (by omega)
    unfold isInstanceReady
    rw [h]
    simp [hmal, statusPollOk]

/-- A describe sequence with one failed describe call before the provider
reports available. -/
def failThenReadyResp : Nat → DescribeResult := fun k =>
  if k = 0 then DescribeResult.fail
  else DescribeResult.status "available" false false

theorem describe_failure_handling_witness :
    isInstanceReady failThenReadyResp 12 = true :=
  (describe_failure_handling failThenReadyResp 12 1 (by decide)
      (fun j hj => by
        have hj0 : j = 0 := by omega
        rw [hj0]
        rfl)).1 (by decide)

/-! ## C8: `_PostCreate` and the high-availability modification wait -/

/-- The managed branch of `AwsRelationalDb._PostCreate`.  When the spec asks
for high availability and the engine is a plain RDS one, it issues
`modify-db-instance --multi-az --apply-immediately` and then re-enters the
same readiness polling (`_IsInstanceReady` with `IS_READY_TIMEOUT`); if that
wait fails it raises instead of proceeding.  The subsequent bookkeeping
(`_SavePrimaryAndSecondaryZones`, endpoint/port extraction) is response
parsing — out of scope per spec section 1 — and is represented here by the
`describe-db-instances` call it starts with. -/
def postCreateManaged (db : DbState) (resp : Nat → DescribeResult) :
    Except PkbError (List Cmd) :=
  let needHaModification := _RDS_ENGINES.contains db.engine
  if db.highAvailability && needHaModification then
    if isInstanceReady resp IS_READY_TIMEOUT then
      Except.ok [Cmd.modifyDbInstanceMultiAz db.instanceId,
                 Cmd.describeDbInstances db.instanceId]
    else
      Except.error (PkbError.exception
        "Instance could not be set to ready after modification for high availability")
  else Except.ok [Cmd.describeDbInstances db.instanceId]

/-- C8: after the mutating `modify-db-instance --multi-az` call that
converts a single-zone database to multi-zone, `_PostCreate` re-enters
creating-equivalent readiness polling with the very same `_IsInstanceReady`
contract and the same `IS_READY_TIMEOUT` deadline that `_IsReady` uses; if
the instance does not report ready again within that deadline, the
post-create step raises rather than proceeding (no describe/bookkeeping
step runs), and if it does report ready the step proceeds normally. -/
theorem postCreate_ha_wait : ∀ (db : DbState)
    (resp : Nat → DescribeResult),
    db.highAvailability = true → _RDS_ENGINES.contains db.engine = true →
    ((isInstanceReady resp IS_READY_TIMEOUT = false →
       postCreateManaged db resp =
         Except.error (PkbError.exception
           "Instance could not be set to ready after modification for high availability")) ∧
     (isInstanceReady resp IS_READY_TIMEOUT = true →
       postCreateManaged db resp =
         Except.ok [Cmd.modifyDbInstanceMultiAz db.instanceId,
                    Cmd.describeDbInstances db.instanceId]) ∧
     (∀ dresp : String → Nat → DescribeResult,
       isReadyManaged [db.instanceId] dresp IS_READY_TIMEOUT =
         isInstanceReady (dresp db.instanceId) IS_READY_TIMEOUT)) := by
  intro db resp hha heng
  have hmem : db.engine ∈ _RDS_ENGINES := by simpa using heng
  refine ⟨?_, ?_, ?_⟩
  · intro hnr
    simp [postCreateManaged, hha, hmem, hnr]
  · intro hr
    simp [postCreateManaged, hha, hmem, hr]
  · intro dresp
    simp [isReadyManaged]

/-- A managed high-availability MySQL database object. -/
def haManagedDb : DbState :=
  { initialDb "run0" MYSQL true ["us-east-1a", "us-east-1b"] true with
    allInstanceIds := ["pkb-db-instance-run0"] }

theorem postCreate_ha_wait_witness :
    postCreateManaged haManagedDb
        (fun _ => DescribeResult.status "available" false false) =
      Except.ok [Cmd.modifyDbInstanceMultiAz haManagedDb.instanceId,
                 Cmd.describeDbInstances haManagedDb.instanceId] :=
  (postCreate_ha_wait haManagedDb
      (fun _ => DescribeResult.status "available" false false)
      rfl (by decide)).2.1 (by decide)

/-! ## `_TeardownNetworking`, `_TeardownParameterGroup`, `_DeleteDependencies` -/

/-- Modelled from the spec: the `for subnet_for_db in self.subnets_owned_by_db`
loop calls `AwsSubnet.Delete` (`aws_network.py` is not under `src/`); per the
spec, errors during deletion are logged at the per-resource level and not
propagated, so each subnet delete is issued without raising. -/
def subnetsDeleteLoop (exec : Exec) (subnets : List Subnet) (w : Provider) :
    Except PkbError (Provider × List Cmd) :=
  match subnets with
  | [] => Except.ok (w, [])
  | s :: rest => do
      let rw ← issueCommand exec (Cmd.deleteSubnet s) false w
      let pr ← subnetsDeleteLoop exec rest rw.2
      Except.ok (pr.1, Cmd.deleteSubnet s :: pr.2)

/-- `AwsRelationalDb._TeardownNetworking`.  `__init__` always sets the
`db_subnet_group_name` attribute, so the `hasattr` guard is always true and
`delete-db-subnet-group` is always issued, with `raise_on_failure=False`;
then every subnet in `subnets_owned_by_db` is deleted. -/
def teardownNetworking (exec : Exec) (db : DbState) (w : Provider) :
    Except PkbError (Provider × List Cmd) := do
  let rw ← issueCommand exec (Cmd.deleteDbSubnetGroup db.dbSubnetGroupName)
    false w
  let pr ← subnetsDeleteLoop exec db.subnetsOwnedByDb rw.2
  Except.ok (pr.1, Cmd.deleteDbSubnetGroup db.dbSubnetGroupName :: pr.2)

/-- `AwsRelationalDb._TeardownParameterGroup`: delete the parameter group if
one was created, with `raise_on_failure=False`. -/
def teardownParameterGroup (exec : Exec) (db : DbState) (w : Provider) :
    Except PkbError (Provider × List Cmd) :=
  match db.parameterGroup with
  | some pg => do
      let rw ← issueCommand exec (Cmd.deleteDbParameterGroup pg) false w
      Except.ok (rw.2, [Cmd.deleteDbParameterGroup pg])
  | none => Except.ok (w, [])

/-- `AwsRelationalDb._DeleteDependencies`: for a managed database, tear down
the networking and then the parameter group. -/
def deleteDependencies (exec : Exec) (db : DbState) (w : Provider) :
    Except PkbError (Provider × List Cmd) :=
  if db.isManagedDb then do
    let p1 ← teardownNetworking exec db w
    let p2 ← teardownParameterGroup exec db p1.1
    Except.ok (p2.1, p1.2 ++ p2.2)
  else Except.ok (w, [])

/-- Modelled from the spec: the base resource framework (`resource.py`, not
under `src/`) runs a resource's deletion phase by invoking `_Delete` and
then — per the `_DeleteDependencies` docstring, "called once after
_DeleteResource()" — `_DeleteDependencies`. -/
def deletePhase (exec : Exec) (db : DbState) (w : Provider) :
    Except PkbError (DbState × Provider × List Cmd) := do
  let out ← awsDelete exec db w
  let pr ← deleteDependencies exec out.1 out.2.1
  Except.ok (out.1, pr.1, out.2.2 ++ pr.2)

/-- The commands `_DeleteDependencies` issues, as a pure function of the
object state. -/
def deleteDependenciesTrace (db : DbState) : List Cmd :=
  if db.isManagedDb then
    Cmd.deleteDbSubnetGroup db.dbSubnetGroupName ::
      (db.subnetsOwnedByDb.map Cmd.deleteSubnet ++
        (match db.parameterGroup with
         | some pg => [Cmd.deleteDbParameterGroup pg]
         | none => []))
  else []

/-- Every command the deletion phase issues. -/
def deletePhaseTrace (db : DbState) : List Cmd :=
  awsDeleteTrace db ++ deleteDependenciesTrace db

/-- Forget the provider state of a phase result, keeping the object state
and the command trace. -/
def phaseOutcome (r : Except PkbError (DbState × Provider × List Cmd)) :
    Except PkbError (DbState × List Cmd) :=
  r.map (fun out => (out.1, out.2.2))

/-- The provider state after the owned-subnet deletion loop. -/
def subnetsDeleteProvider (exec : Exec) (subnets : List Subnet)
    (w : Provider) : Provider :=
  subnets.foldl (fun w s => (exec (Cmd.deleteSubnet s) w).2) w

theorem subnetsDeleteLoop_eq (exec : Exec) :
    ∀ (subnets : List Subnet) (w : Provider),
    subnetsDeleteLoop exec subnets w =
      Except.ok (subnetsDeleteProvider exec subnets w,
        subnets.map Cmd.deleteSubnet) := by
  intro subnets
  induction subnets with
  | nil => intro w; rfl
  | cons s rest ih =>
      intro w
      simp only [subnetsDeleteLoop, issueCommand_false, ih]
      rfl

theorem teardownNetworking_eq (exec : Exec) (db : DbState) (w : Provider) :
    teardownNetworking exec db w =
      Except.ok (subnetsDeleteProvider exec db.subnetsOwnedByDb
          ((exec (Cmd.deleteDbSubnetGroup db.dbSubnetGroupName) w).2),
        Cmd.deleteDbSubnetGroup db.dbSubnetGroupName ::
          db.subnetsOwnedByDb.map Cmd.deleteSubnet) := by
  simp only [teardownNetworking, issueCommand_false, subnetsDeleteLoop_eq]
  rfl

/-- The provider state after `_TeardownParameterGroup`. -/
def teardownParameterGroupProvider (exec : Exec) (db : DbState)
    (w : Provider) : Provider :=
  match db.parameterGroup with
  | some pg => (exec (Cmd.deleteDbParameterGroup pg) w).2
  | none => w

/-- The commands `_TeardownParameterGroup` issues. -/
def teardownParameterGroupTrace (db : DbState) : List Cmd :=
  match db.parameterGroup with
  | some pg => [Cmd.deleteDbParameterGroup pg]
  | none => []

theorem teardownParameterGroup_eq (exec : Exec) (db : DbState)
    (w : Provider) :
    teardownParameterGroup exec db w =
      Except.ok (teardownParameterGroupProvider exec db w,
        teardownParameterGroupTrace db) := by
  cases hg : db.parameterGroup with
  | none =>
      simp [teardownParameterGroup, teardownParameterGroupProvider,
        teardownParameterGroupTrace, hg]
  | some pg =>
      simp only [teardownParameterGroup, teardownParameterGroupProvider,
        teardownParameterGroupTrace, hg, issueCommand_false]
      rfl

theorem deleteDependencies_trace (exec : Exec) (db : DbState)
    (w : Provider) :
    (deleteDependencies exec db w).map (fun pr => pr.2) =
      Except.ok (deleteDependenciesTrace db) := by
  by_cases hm : db.isManagedDb = true
  · simp only [deleteDependencies, deleteDependenciesTrace, hm, if_pos,
      teardownNetworking_eq, teardownParameterGroup_eq, exceptBind_ok]
    rfl
  · simp only [deleteDependencies, deleteDependenciesTrace, if_neg hm]
    rfl

/-- The full deletion phase never raises and issues exactly the commands of
`deletePhaseTrace`, whatever the provider does to each command. -/
theorem deletePhase_spec (exec : Exec) (db : DbState) (w : Provider) :
    phaseOutcome (deletePhase exec db w) =
      Except.ok (awsDeleteDbState db, deletePhaseTrace db) := by
  have hdd : (awsDeleteDbState db).isManagedDb = db.isManagedDb := by
    unfold awsDeleteDbState
    by_cases hm : db.isManagedDb = false <;> simp [hm]
  have hddTr : deleteDependenciesTrace (awsDeleteDbState db) =
      deleteDependenciesTrace db := by
    unfold awsDeleteDbState
    by_cases hm : db.isManagedDb = false <;> simp [deleteDependenciesTrace, hm]
  have hdep := deleteDependencies_trace exec (awsDeleteDbState db)
    (awsDeleteProvider exec db w)
  unfold deletePhase phaseOutcome
  rw [awsDelete_eq]
  cases hde : deleteDependencies exec (awsDeleteDbState db)
      (awsDeleteProvider exec db w) with
  | error e => rw [hde] at hdep; simp [Except.map] at hdep
  | ok pr =>
      rw [hde] at hdep
      simp only [Except.map] at hdep
      have hpr2 : pr.2 = deleteDependenciesTrace (awsDeleteDbState db) :=
        Except.ok.inj hdep
      simp only [exceptBind_ok, hde, Except.map]
      rw [hpr2, hddTr]
      rfl

/-- C5: errors during deletion are swallowed per resource and never
propagated.  For every managed database object, every provider state and
every provider behaviour `exec` — including behaviours under which any or
all individual delete commands fail — the deletion phase (`_Delete`
followed by `_DeleteDependencies`) returns normally, and its command trace
is exactly one delete attempt for every remaining item: each recorded
instance, the cluster if one was created, the db subnet group, every owned
subnet, and the parameter group if one was created. -/
theorem delete_best_effort : ∀ (exec : Exec) (db : DbState) (w : Provider),
    db.isManagedDb = true →
    phaseOutcome (deletePhase exec db w) =
      Except.ok (db, deletePhaseTrace db) ∧
    deletePhaseTrace db =
      db.allInstanceIds.map Cmd.deleteDbInstance ++
        ((match db.clusterId with
          | some cid => [Cmd.deleteDbCluster cid]
          | none => []) ++
          (Cmd.deleteDbSubnetGroup db.dbSubnetGroupName ::
            (db.subnetsOwnedByDb.map Cmd.deleteSubnet ++
              teardownParameterGroupTrace db))) := by
  intro exec db w hm
  constructor
  · have h := deletePhase_spec exec db w
    have h1 : awsDeleteDbState db = db := by simp [awsDeleteDbState, hm]
    rw [h1] at h
    exact h
  · simp [deletePhaseTrace, awsDeleteTrace, deleteDependenciesTrace,
      teardownParameterGroupTrace, hm]

/-- A managed Aurora database object after a full creation: two instances,
a cluster, an owned subnet, a subnet group and a parameter group. -/
def teardownDb : DbState :=
  { initialDb "run0" AURORA_MYSQL true ["us-east-1a", "us-east-1b"] true with
    allInstanceIds := ["pkb-db-instance-run0",
                       "pkb-db-instance-run0-us-east-1b"],
    clusterId := some "pkb-db-cluster-run0",
    parameterGroup := some "pkb-parameter-group-run0",
    dbSubnetGroupName := some "pkb-db-subnet-group-run0",
    subnetsUsedByDb := [Subnet.client, Subnet.created "us-east-1b"],
    subnetsOwnedByDb := [Subnet.created "us-east-1b"] }

theorem delete_best_effort_witness :
    phaseOutcome (deletePhase execAllFail teardownDb
        { instances := [], clusters := [] }) =
      Except.ok (teardownDb, deletePhaseTrace teardownDb) :=
  (delete_best_effort execAllFail teardownDb
    { instances := [], clusters := [] } rfl).1

/-! ## `GetDefaultPort` and `GetDefaultEngineVersion` -/

/-- `AwsRelationalDb.GetDefaultPort`: compares the engine against the plain
`MYSQL`, `POSTGRES` and `SQLSERVER` constants only, raising
`RelationalDbEngineNotFoundError` for anything else. -/
def GetDefaultPort (engine : String) : Except PkbError Nat :=
  if engine = MYSQL then Except.ok DEFAULT_MYSQL_PORT
  else if engine = POSTGRES then Except.ok DEFAULT_POSTGRES_PORT
  else if engine = SQLSERVER then Except.ok DEFAULT_SQLSERVER_PORT
  else Except.error PkbError.relationalDbEngineNotFound

/-- `AwsRelationalDb.GetDefaultEngineVersion`. -/
def GetDefaultEngineVersion (engine : String) : Except PkbError String :=
  match _MAP_ENGINE_TO_DEFAULT_VERSION.lookup engine with
  | some v => Except.ok v
  | none => Except.error (PkbError.exception
      ("Unspecified default version for " ++ engine))

/-! ## Networking setup (`_SetupNetworking` and helpers) -/

/-- `AwsRelationalDb._CreateSubnetInZone`, with `AwsSubnet.Create` modelled
from the spec as an external call that either creates the subnet or raises
(`aws_network.py` is not under `src/`); `ok zone` says whether creation in
that zone succeeds.  Only after a successful `Create()` is the fresh subnet
appended to `subnets_used_by_db` and `subnets_owned_by_db`.  The middle
component of the result is the subnet just created. -/
def createSubnetInZone (ok : String → Bool) (zone : String) (db : DbState) :
    Except PkbError (DbState × List Subnet × List Cmd) :=
  if ok zone then
    Except.ok ({ db with
        subnetsUsedByDb := db.subnetsUsedByDb ++ [Subnet.created zone],
        subnetsOwnedByDb := db.subnetsOwnedByDb ++ [Subnet.created zone] },
      [Subnet.created zone], [Cmd.createSubnet zone])
  else Except.error (PkbError.exception "subnet creation failed")

/-- The `while len(new_subnet_zones) >= 1` loop of
`_CreateSubnetInAdditionalZone`: try each candidate zone in turn, swallowing
per-zone failures, and raise only when every zone failed.  (The Python loop
pops from the end of the list; the caller below passes the reversed list.) -/
def createSubnetTryZones (ok : String → Bool) :
    List String → DbState → Except PkbError (DbState × List Subnet × List Cmd)
  | [], _ => Except.error
      (PkbError.exception "Unable to create subnet in any availability zones")
  | z :: rest, db =>
      match createSubnetInZone ok z db with
      | Except.ok r => Except.ok r
      | Except.error _ => createSubnetTryZones ok rest db

/-- `AwsRelationalDb._GetNewZones`: all zones of the region minus the
database's zones.  (Python `list.remove` drops the first occurrence.) -/
def getNewZones (allZones zones : List String) : List String :=
  zones.foldl (fun acc z => acc.erase z) allZones

/-- `AwsRelationalDb._CreateSubnetInAdditionalZone`. -/
def createSubnetInAdditionalZone (ok : String → Bool)
    (allZones : List String) (db : DbState) :
    Except PkbError (DbState × List Subnet × List Cmd) :=
  createSubnetTryZones ok (getNewZones allZones db.zones).reverse db

/-- The `for zone in self.zones` loop of
`_CreateSubnetInAllZonesAssumeClientZoneExists`: create a subnet in every
zone other than the client's; for the client's zone, append the client VM's
own subnet to `subnets_used_by_db` only. -/
def createSubnetAllZonesLoop (ok : String → Bool) (clientZone : String) :
    List String → DbState → Except PkbError (DbState × List Subnet × List Cmd)
  | [], db => Except.ok (db, [], [])
  | z :: rest, db =>
      if z ≠ clientZone then do
        let r1 ← createSubnetInZone ok z db
        let r2 ← createSubnetAllZonesLoop ok clientZone rest r1.1
        Except.ok (r2.1, r1.2.1 ++ r2.2.1, r1.2.2 ++ r2.2.2)
      else
        createSubnetAllZonesLoop ok clientZone rest
          { db with subnetsUsedByDb := db.subnetsUsedByDb ++ [Subnet.client] }

/-- `AwsRelationalDb._CreateDbSubnetGroup`: issues
`rds create-db-subnet-group` over `subnets_used_by_db` and records the group
name for cleanup.  (It also records the client VPC's default security group
id; the command's argument strings are out of scope.) -/
def createDbSubnetGroup (db : DbState) : DbState × List Cmd :=
  let name := "pkb-db-subnet-group-" ++ db.runUri
  ({ db with dbSubnetGroupName := some name },
   [Cmd.createDbSubnetGroup name])

/-- `AwsRelationalDb._SetupNetworking`: for a plain RDS engine, record the
client's subnet as used and create one subnet in an additional zone; for an
Aurora engine, create subnets in all requested zones except the client's;
then create the db subnet group and authorize ingress on the default
Postgres port.  The middle component collects the subnets created. -/
def setupNetworking (ok : String → Bool) (allZones : List String)
    (clientZone : String) (db : DbState) :
    Except PkbError (DbState × List Subnet × List Cmd) :=
  if _RDS_ENGINES.contains db.engine then do
    let r ← createSubnetInAdditionalZone ok allZones
      { db with subnetsUsedByDb := db.subnetsUsedByDb ++ [Subnet.client] }
    let gc := createDbSubnetGroup r.1
    Except.ok (gc.1, r.2.1,
      r.2.2 ++ gc.2 ++ [Cmd.authorizeIngress DEFAULT_POSTGRES_PORT])
  else if _AURORA_ENGINES.contains db.engine then do
    let r ← createSubnetAllZonesLoop ok clientZone db.zones db
    let gc := createDbSubnetGroup r.1
    Except.ok (gc.1, r.2.1,
      r.2.2 ++ gc.2 ++ [Cmd.authorizeIngress DEFAULT_POSTGRES_PORT])
  else Except.error (PkbError.exception "Unknown how to create network")

/-! ## `_Create` (`_CreateAwsSqlInstance`) and `_CreateDependencies` -/

/-- The per-zone instance identifiers of the Aurora branch of
`_CreateAwsSqlInstance`: the first zone's (writer) instance uses
`instance_id` itself, each further zone appends `-` and the zone name. -/
def auroraInstanceIds (instanceId : String) : List String → List String
  | [] => []
  | z0 :: rest =>
      instanceId :: rest.map (fun z =>
        if z = z0 then instanceId else instanceId ++ "-" ++ z)

/-- `AwsRelationalDb._CreateAwsSqlInstance`.  Plain RDS engines: one
`create-db-instance`, recording the id in `all_instance_ids`.  Aurora
engines: check the zones/high-availability consistency, create the cluster,
then one instance per zone.  Unknown engines raise. -/
def createAwsSqlInstance (db : DbState) :
    Except PkbError (DbState × List Cmd) :=
  if _RDS_ENGINES.contains db.engine then
    Except.ok ({ db with
        allInstanceIds := db.allInstanceIds ++ [db.instanceId] },
      [Cmd.createDbInstance db.instanceId])
  else if _AURORA_ENGINES.contains db.engine then
    if (decide (1 < db.zones.length) != db.highAvailability) = true then
      Except.error (PkbError.exception
        "When db_high_availability is true, multiple zones must be specified")
    else
      let clusterIdentifier := "pkb-db-cluster-" ++ db.runUri
      let ids := auroraInstanceIds db.instanceId db.zones
      Except.ok ({ db with
          clusterId := some clusterIdentifier
          allInstanceIds := db.allInstanceIds ++ ids },
        Cmd.createDbCluster clusterIdentifier ::
          ids.map Cmd.createDbInstance)
  else Except.error
    (PkbError.exception "Unknown how to create AWS data base engine")

/-- `AwsRelationalDb._Create`.  Managed: `_CreateAwsSqlInstance`.
Unmanaged: set up the database on the server VM (external), open the
firewall on the engine's default port — which calls `GetDefaultPort()` and
propagates its exception — and record the firewall and that the unmanaged
database now exists. -/
def awsCreate (db : DbState) : Except PkbError (DbState × List Cmd) :=
  if db.isManagedDb then createAwsSqlInstance db
  else
    match GetDefaultPort db.engine with
    | Except.ok p =>
        Except.ok ({ db with
            hasFirewall := true
            unmanagedDbExists := some true }, [Cmd.allowPort p])
    | Except.error e => Except.error e

/-- `AwsRelationalDb._CreateDependencies`: for a managed database, assert
the client VM's region matches the database's, then set up networking. -/
def createDependencies (ok : String → Bool) (allZones : List String)
    (clientZone : String) (sameRegion : Bool) (db : DbState) :
    Except PkbError (DbState × List Subnet × List Cmd) :=
  if db.isManagedDb then
    if sameRegion then setupNetworking ok allZones clientZone db
    else Except.error (PkbError.exception
      "client_vm and relational_db server must be in the same region")
  else Except.ok (db, [], [])

/-- Modelled from the spec: the base resource framework (`resource.py`, not
under `src/`) runs a resource's creation phase by invoking
`_CreateDependencies` — per its docstring, "called once before
_CreateResource()" — and then `_Create`. -/
def createPhase (ok : String → Bool) (allZones : List String)
    (clientZone : String) (sameRegion : Bool) (db : DbState) :
    Except PkbError (DbState × List Subnet × List Cmd) := do
  let dep ← createDependencies ok allZones clientZone sameRegion db
  let cr ← awsCreate dep.1
  Except.ok (cr.1, dep.2.1, dep.2.2 ++ cr.2)

/-! ## Command classes and trace ordering -/

/-- Commands that set up the networking dependencies (subnets, db subnet
group, security-group ingress rule). -/
def isNetworkSetupCmd : Cmd → Bool
  | Cmd.createSubnet _ => true
  | Cmd.createDbSubnetGroup _ => true
  | Cmd.authorizeIngress _ => true
  | _ => false

/-- Commands that provision the database instance or cluster itself. -/
def isDbProvisionCmd : Cmd → Bool
  | Cmd.createDbInstance _ => true
  | Cmd.createDbCluster _ => true
  | _ => false

/-- Commands that delete the database instance or cluster itself. -/
def isDbDeleteCmd : Cmd → Bool
  | Cmd.deleteDbInstance _ => true
  | Cmd.deleteDbCluster _ => true
  | _ => false

/-- Commands that tear down dependencies (subnet group, subnets, parameter
group). -/
def isDependencyTeardownCmd : Cmd → Bool
  | Cmd.deleteDbSubnetGroup _ => true
  | Cmd.deleteSubnet _ => true
  | Cmd.deleteDbParameterGroup _ => true
  | _ => false

/-- `tracePrecedes p q tr` holds when every `p`-command in `tr` occurs
strictly before every `q`-command: after any `q`-command, no `p`-command
appears. -/
def tracePrecedes (p q : Cmd → Bool) : List Cmd → Bool
  | [] => true
  | c :: rest =>
      (if q c then rest.all (fun x => !(p x)) else true) &&
        tracePrecedes p q rest

theorem exceptBind_error {ε α β : Type} (e : ε) (f : α → Except ε β) :
    (Except.error e : Except ε α) >>= f = Except.error e := rfl

theorem tracePrecedes_of_not_p (p q : Cmd → Bool) :
    ∀ (l : List Cmd), (∀ x ∈ l, p x = false) →
    tracePrecedes p q l = true := by
  intro l
  induction l with
  | nil => intro _; rfl
  | cons c rest ih =>
      intro h
      unfold tracePrecedes
      rw [Bool.and_eq_true]
      refine ⟨?_, ih (fun x hx => h x (List.mem_cons_of_mem c hx))⟩
      by_cases hq : q c = true
      · rw [if_pos hq, List.all_eq_true]
        intro x hx
        simp [h x (List.mem_cons_of_mem c hx)]
      · rw [if_neg hq]

theorem tracePrecedes_append (p q : Cmd → Bool) :
    ∀ (t1 t2 : List Cmd), (∀ x ∈ t1, q x = false) →
    (∀ x ∈ t2, p x = false) →
    tracePrecedes p q (t1 ++ t2) = true := by
  intro t1 t2
  induction t1 with
  | nil =>
      intro _ h2
      simpa using tracePrecedes_of_not_p p q t2 h2
  | cons c rest ih =>
      intro h1 h2
      rw [List.cons_append]
      unfold tracePrecedes
      rw [Bool.and_eq_true]
      refine ⟨?_, ih (fun x hx => h1 x (List.mem_cons_of_mem c hx)) h2⟩
      have hqc : q c = false := h1 c (List.mem_cons_self c rest)
      rw [if_neg (by simp [hqc])]

/-- The boolean order check implies the positional statement: when `p` and
`q` are disjoint, every index holding a `p`-command is strictly below every
index holding a `q`-command. -/
theorem tracePrecedes_get (p q : Cmd → Bool)
    (hdisj : ∀ c, p c = true → q c = false) :
    ∀ (tr : List Cmd), tracePrecedes p q tr = true →
    ∀ (i j : Nat) (hi : i < tr.length) (hj : j < tr.length),
    p (tr.get ⟨i, hi⟩) = true → q (tr.get ⟨j, hj⟩) = true → i < j := by
  intro tr
  induction tr with
  | nil =>
      intro _ i j hi
      exact absurd hi (Nat.not_lt_zero i)
  | cons c rest ih =>
      intro htr i j hi hj hp hq
      unfold tracePrecedes at htr
      rw [Bool.and_eq_true] at htr
      obtain ⟨hhead, htail⟩ := htr
      cases j with
      | zero =>
          have hqc : q c = true := hq
          cases i with
          | zero =>
              have hpc : p c = true := hp
              rw [hdisj c hpc] at hqc
              cases hqc
          | succ i2 =>
              rw [if_pos hqc, List.all_eq_true] at hhead
              have hi2 : i2 < rest.length := Nat.lt_of_succ_lt_succ hi
              have hpmem := hhead (rest.get ⟨i2, hi2⟩)
                (rest.get_mem i2 hi2)
              have hp2 : p (rest.get ⟨i2, hi2⟩) = true := hp
              rw [hp2] at hpmem
              cases hpmem
      | succ j2 =>
          cases i with
          | zero => exact Nat.succ_pos j2
          | succ i2 =>
              have hi2 : i2 < rest.length := Nat.lt_of_succ_lt_succ hi
              have hj2 : j2 < rest.length := Nat.lt_of_succ_lt_succ hj
              have := ih htail i2 j2 hi2 hj2 hp hq
              omega

theorem network_not_provision (c : Cmd)
    (h : isNetworkSetupCmd c = true) : isDbProvisionCmd c = false := by
  cases c <;> simp_all [isNetworkSetupCmd, isDbProvisionCmd]

theorem dbDelete_not_teardown (c : Cmd)
    (h : isDbDeleteCmd c = true) : isDependencyTeardownCmd c = false := by
  cases c <;> simp_all [isDbDeleteCmd, isDependencyTeardownCmd]

/-! ## What each creation helper contributes to state and trace -/

theorem createSubnetInZone_ok (ok : String → Bool) (zone : String)
    (db : DbState) (out : DbState × List Subnet × List Cmd)
    (h : createSubnetInZone ok zone db = Except.ok out) :
    out = ({ db with
        subnetsUsedByDb := db.subnetsUsedByDb ++ [Subnet.created zone]
        subnetsOwnedByDb := db.subnetsOwnedByDb ++ [Subnet.created zone] },
      [Subnet.created zone], [Cmd.createSubnet zone]) := by
  unfold createSubnetInZone at h
  by_cases hk : ok zone = true
  · rw [if_pos hk] at h
    exact (Except.ok.inj h).symm
  · rw [if_neg hk] at h
    cases h

theorem createSubnetTryZones_spec (ok : String → Bool) :
    ∀ (zs : List String) (db : DbState)
    (out : DbState × List Subnet × List Cmd),
    createSubnetTryZones ok zs db = Except.ok out →
    ∃ z, out = ({ db with
        subnetsUsedByDb := db.subnetsUsedByDb ++ [Subnet.created z]
        subnetsOwnedByDb := db.subnetsOwnedByDb ++ [Subnet.created z] },
      [Subnet.created z], [Cmd.createSubnet z]) := by
  intro zs
  induction zs with
  | nil => intro db out h; cases h
  | cons z rest ih =>
      intro db out h
      unfold createSubnetTryZones at h
      cases hc : createSubnetInZone ok z db with
      | ok r =>
          rw [hc] at h
          simp only [] at h
          have hro : r = out := Except.ok.inj h
          subst hro
          exact ⟨z, createSubnetInZone_ok ok z db r hc⟩
      | error e =>
          rw [hc] at h
          simp only [] at h
          exact ih db out h

theorem createSubnetAllZonesLoop_spec (ok : String → Bool) (cz : String) :
    ∀ (zs : List String) (db : DbState)
    (out : DbState × List Subnet × List Cmd),
    createSubnetAllZonesLoop ok cz zs db = Except.ok out →
    out.1.subnetsOwnedByDb = db.subnetsOwnedByDb ++ out.2.1 ∧
    (∀ s ∈ out.2.1, ∃ z, s = Subnet.created z) ∧
    (∀ c ∈ out.2.2, isNetworkSetupCmd c = true) := by
  intro zs
  induction zs with
  | nil =>
      intro db out h
      cases h
      simp
  | cons z rest ih =>
      intro db out h
      unfold createSubnetAllZonesLoop at h
      by_cases hz : z ≠ cz
      · rw [if_pos hz] at h
        cases hc : createSubnetInZone ok z db with
        | error e =>
            rw [hc, exceptBind_error] at h
            cases h
        | ok r1 =>
            rw [hc, exceptBind_ok] at h
            cases hl : createSubnetAllZonesLoop ok cz rest r1.1 with
            | error e =>
                rw [hl, exceptBind_error] at h
                cases h
            | ok r2 =>
                rw [hl, exceptBind_ok] at h
                cases h
                have h1 := createSubnetInZone_ok ok z db r1 hc
                have h2 := ih r1.1 r2 hl
                subst h1
                refine ⟨?_, ?_, ?_⟩
                · rw [h2.1]
                  simp [List.append_assoc]
                · intro s hs
                  simp only [List.mem_append] at hs
                  rcases hs with hs | hs
                  · simp only [List.mem_singleton] at hs
                    exact ⟨z, hs⟩
                  · exact h2.2.1 s hs
                · intro c hcm
                  simp only [List.mem_append] at hcm
                  rcases hcm with hcm | hcm
                  · simp only [List.mem_singleton] at hcm
                    subst hcm
                    rfl
                  · exact h2.2.2 c hcm
      · rw [if_neg hz] at h
        have h2 := ih { db with
          subnetsUsedByDb := db.subnetsUsedByDb ++ [Subnet.client] } out h
        exact h2

theorem setupNetworking_spec (ok : String → Bool) (allZones : List String)
    (clientZone : String) (db : DbState)
    (out : DbState × List Subnet × List Cmd)
    (h : setupNetworking ok allZones clientZone db = Except.ok out) :
    out.1.subnetsOwnedByDb = db.subnetsOwnedByDb ++ out.2.1 ∧
    (∀ s ∈ out.2.1, ∃ z, s = Subnet.created z) ∧
    (∀ c ∈ out.2.2, isNetworkSetupCmd c = true) := by
  unfold setupNetworking at h
  by_cases h1 : _RDS_ENGINES.contains db.engine = true
  · rw [if_pos h1] at h
    cases hr : createSubnetInAdditionalZone ok allZones
        { db with subnetsUsedByDb := db.subnetsUsedByDb ++ [Subnet.client] } with
    | error e =>
        rw [hr, exceptBind_error] at h
        cases h
    | ok r =>
        rw [hr, exceptBind_ok] at h
        obtain ⟨z, hz⟩ := createSubnetTryZones_spec ok _ _ r hr
        subst hz
        cases h
        refine ⟨rfl, ?_, ?_⟩
        · intro s hs
          simp only [List.mem_singleton] at hs
          exact ⟨z, hs⟩
        · intro c hcm
          simp only [createDbSubnetGroup, List.append_assoc,
            List.mem_append, List.mem_singleton] at hcm
          rcases hcm with hcm | hcm | hcm <;> (subst hcm; rfl)
  · rw [if_neg h1] at h
    by_cases h2 : _AURORA_ENGINES.contains db.engine = true
    · rw [if_pos h2] at h
      cases hr : createSubnetAllZonesLoop ok clientZone db.zones db with
      | error e =>
          rw [hr, exceptBind_error] at h
          cases h
      | ok r =>
          rw [hr, exceptBind_ok] at h
          have hspec := createSubnetAllZonesLoop_spec ok clientZone
            db.zones db r hr
          cases h
          refine ⟨hspec.1, hspec.2.1, ?_⟩
          intro c hcm
          simp only [createDbSubnetGroup, List.append_assoc,
            List.mem_append, List.mem_singleton] at hcm
          rcases hcm with hcm | hcm | hcm
          · exact hspec.2.2 c hcm
          · subst hcm; rfl
          · subst hcm; rfl
    · rw [if_neg h2] at h
      cases h

theorem awsCreate_not_network (db : DbState) (out : DbState × List Cmd)
    (h : awsCreate db = Except.ok out) :
    ∀ c ∈ out.2, isNetworkSetupCmd c = false := by
  unfold awsCreate at h
  by_cases hm : db.isManagedDb = true
  · rw [if_pos hm] at h
    unfold createAwsSqlInstance at h
    by_cases h1 : _RDS_ENGINES.contains db.engine = true
    · rw [if_pos h1] at h
      cases h
      intro c hc
      simp only [List.mem_singleton] at hc
      subst hc
      rfl
    · rw [if_neg h1] at h
      by_cases h2 : _AURORA_ENGINES.contains db.engine = true
      · rw [if_pos h2] at h
        by_cases h3 :
            (decide (1 < db.zones.length) != db.highAvailability) = true
        · rw [if_pos h3] at h
          cases h
        · rw [if_neg h3] at h
          cases h
          intro c hc
          simp only [List.mem_cons] at hc
          rcases hc with hc | hc
          · subst hc; rfl
          · simp only [List.mem_map] at hc
            obtain ⟨i, _, hci⟩ := hc
            rw [← hci]
            rfl
      · rw [if_neg h2] at h
        cases h
  · rw [if_neg hm] at h
    cases hp : GetDefaultPort db.engine with
    | ok p =>
        rw [hp] at h
        simp only [] at h
        cases h
        intro c hc
        simp only [List.mem_singleton] at hc
        subst hc
        rfl
    | error e =>
        rw [hp] at h
        simp only [] at h
        cases h

theorem createDependencies_not_provision (ok : String → Bool)
    (allZones : List String) (clientZone : String) (sameRegion : Bool)
    (db : DbState) (out : DbState × List Subnet × List Cmd)
    (h : createDependencies ok allZones clientZone sameRegion db =
      Except.ok out) :
    ∀ c ∈ out.2.2, isDbProvisionCmd c = false := by
  unfold createDependencies at h
  by_cases hm : db.isManagedDb = true
  · rw [if_pos hm] at h
    by_cases hs : sameRegion = true
    · rw [if_pos hs] at h
      have hspec := setupNetworking_spec ok allZones clientZone db out h
      intro c hc
      exact network_not_provision c (hspec.2.2 c hc)
    · rw [if_neg hs] at h
      cases h
  · rw [if_neg hm] at h
    cases h
    intro c hc
    cases hc

theorem awsDeleteTrace_not_teardown (db : DbState) :
    ∀ c ∈ awsDeleteTrace db, isDependencyTeardownCmd c = false := by
  intro c hc
  unfold awsDeleteTrace at hc
  by_cases hm : db.isManagedDb = false
  · rw [if_pos hm] at hc
    by_cases hf : db.hasFirewall = true
    · rw [if_pos hf] at hc
      simp only [List.mem_singleton] at hc
      subst hc
      rfl
    · rw [if_neg hf] at hc
      cases hc
  · rw [if_neg hm] at hc
    simp only [List.mem_append, List.mem_map] at hc
    rcases hc with ⟨i, _, hci⟩ | hc
    · rw [← hci]; rfl
    · cases hcl : db.clusterId with
      | none => rw [hcl] at hc; cases hc
      | some cid =>
          rw [hcl] at hc
          simp only [List.mem_singleton] at hc
          subst hc
          rfl

theorem deleteDependenciesTrace_not_delete (db : DbState) :
    ∀ c ∈ deleteDependenciesTrace db, isDbDeleteCmd c = false := by
  intro c hc
  unfold deleteDependenciesTrace at hc
  by_cases hm : db.isManagedDb = true
  · rw [if_pos hm] at hc
    simp only [List.mem_cons, List.mem_append, List.mem_map] at hc
    rcases hc with hc | ⟨i, _, hci⟩ | hc
    · subst hc; rfl
    · rw [← hci]; rfl
    · cases hg : db.parameterGroup with
      | none => rw [hg] at hc; cases hc
      | some pg =>
          rw [hg] at hc
          simp only [] at hc
          simp only [List.mem_singleton] at hc
          subst hc
          rfl
  · rw [if_neg hm] at hc
    cases hc

/-- C6: deletion mirrors creation order exactly inverted.  In every
successful run of the creation phase, every networking-dependency command
(create subnet, create db subnet group, authorize ingress) precedes every
database-provisioning command (create instance/cluster); and the deletion
phase always succeeds with a trace in which every instance/cluster delete
command precedes every dependency-teardown command (subnet group, subnets,
parameter group) — both as a boolean order check over the trace and as a
statement about positions. -/
theorem creation_deletion_order : ∀ (ok : String → Bool)
    (allZones : List String) (clientZone : String) (sameRegion : Bool)
    (db db2 : DbState) (ghost : List Subnet) (tr : List Cmd)
    (exec : Exec) (w : Provider),
    (createPhase ok allZones clientZone sameRegion db =
        Except.ok (db2, ghost, tr) →
      tracePrecedes isNetworkSetupCmd isDbProvisionCmd tr = true ∧
      (∀ (i j : Nat) (hi : i < tr.length) (hj : j < tr.length),
        isNetworkSetupCmd (tr.get ⟨i, hi⟩) = true →
        isDbProvisionCmd (tr.get ⟨j, hj⟩) = true → i < j)) ∧
    (phaseOutcome (deletePhase exec db w) =
        Except.ok (awsDeleteDbState db, deletePhaseTrace db) ∧
      tracePrecedes isDbDeleteCmd isDependencyTeardownCmd
        (deletePhaseTrace db) = true ∧
      (∀ (i j : Nat) (hi : i < (deletePhaseTrace db).length)
          (hj : j < (deletePhaseTrace db).length),
        isDbDeleteCmd ((deletePhaseTrace db).get ⟨i, hi⟩) = true →
        isDependencyTeardownCmd ((deletePhaseTrace db).get ⟨j, hj⟩) = true →
        i < j)) := by
  intro ok allZones clientZone sameRegion db db2 ghost tr exec w
  constructor
  · intro h
    unfold createPhase at h
    cases hdep : createDependencies ok allZones clientZone sameRegion db with
    | error e =>
        rw [hdep, exceptBind_error] at h
        cases h
    | ok dep =>
        rw [hdep, exceptBind_ok] at h
        cases hcr : awsCreate dep.1 with
        | error e =>
            rw [hcr, exceptBind_error] at h
            cases h
        | ok cr =>
            rw [hcr, exceptBind_ok] at h
            cases h
            have hpre := tracePrecedes_append isNetworkSetupCmd
              isDbProvisionCmd dep.2.2 cr.2
              (createDependencies_not_provision ok allZones clientZone
                sameRegion db dep hdep)
              (awsCreate_not_network dep.1 cr hcr)
            refine ⟨hpre, ?_⟩
            exact tracePrecedes_get isNetworkSetupCmd isDbProvisionCmd
              network_not_provision _ hpre
  · have hpre := tracePrecedes_append isDbDeleteCmd isDependencyTeardownCmd
      (awsDeleteTrace db) (deleteDependenciesTrace db)
      (awsDeleteTrace_not_teardown db)
      (deleteDependenciesTrace_not_delete db)
    refine ⟨deletePhase_spec exec db w, hpre, ?_⟩
    exact tracePrecedes_get isDbDeleteCmd isDependencyTeardownCmd
      dbDelete_not_teardown _ hpre

/-- The object state after `_CreateDependencies` of a managed MySQL
database whose client sits in `us-east-1a`, with one additional subnet
created in `us-east-1b`. -/
def networkedDb : DbState :=
  { preCreateManagedDb with
    subnetsUsedByDb := [Subnet.client, Subnet.created "us-east-1b"]
    subnetsOwnedByDb := [Subnet.created "us-east-1b"]
    dbSubnetGroupName := some "pkb-db-subnet-group-run0" }

/-- The commands `_SetupNetworking` issues in that run. -/
def networkSetupTrace : List Cmd :=
  [Cmd.createSubnet "us-east-1b",
   Cmd.createDbSubnetGroup "pkb-db-subnet-group-run0",
   Cmd.authorizeIngress DEFAULT_POSTGRES_PORT]

/-- The object state after the subsequent `_Create`. -/
def createdDb : DbState :=
  { networkedDb with allInstanceIds := ["pkb-db-instance-run0"] }

/-- The full creation-phase trace of that run. -/
def createdTrace : List Cmd :=
  networkSetupTrace ++ [Cmd.createDbInstance "pkb-db-instance-run0"]

theorem creation_deletion_order_witness :
    tracePrecedes isNetworkSetupCmd isDbProvisionCmd createdTrace = true :=
  ((creation_deletion_order (fun _ => true) ["us-east-1a", "us-east-1b"]
      "us-east-1a" true preCreateManagedDb createdDb
      [Subnet.created "us-east-1b"] createdTrace rdsExec
      { instances := [], clusters := [] }).1 (by rfl)).1

/-- C7: ownership invariant.  In every successful run of
`_SetupNetworking` starting from a fresh object (no owned subnets yet):
`subnets_owned_by_db` is exactly the list of subnets this resource's own
creation created; the client-supplied subnet — which the database merely
uses in its subnet group — is never placed in the owned list; and the
networking teardown deletes exactly the owned subnets, so it never deletes
the client's subnet. -/
theorem ownership_invariant : ∀ (ok : String → Bool)
    (allZones : List String) (clientZone : String) (db db2 : DbState)
    (created : List Subnet) (tr : List Cmd),
    db.subnetsOwnedByDb = [] →
    setupNetworking ok allZones clientZone db =
      Except.ok (db2, created, tr) →
    db2.subnetsOwnedByDb = created ∧
    (∀ s ∈ created, ∃ z, s = Subnet.created z) ∧
    Subnet.client ∉ db2.subnetsOwnedByDb ∧
    (∀ (exec : Exec) (w : Provider),
      teardownNetworking exec db2 w =
        Except.ok (subnetsDeleteProvider exec db2.subnetsOwnedByDb
            ((exec (Cmd.deleteDbSubnetGroup db2.dbSubnetGroupName) w).2),
          Cmd.deleteDbSubnetGroup db2.dbSubnetGroupName ::
            db2.subnetsOwnedByDb.map Cmd.deleteSubnet) ∧
      Cmd.deleteSubnet Subnet.client ∉
        (Cmd.deleteDbSubnetGroup db2.dbSubnetGroupName ::
          db2.subnetsOwnedByDb.map Cmd.deleteSubnet)) := by
  intro ok allZones clientZone db db2 created tr hempty h
  have hspec := setupNetworking_spec ok allZones clientZone db
    (db2, created, tr) h
  have howned : db2.subnetsOwnedByDb = created := by
    have := hspec.1
    rw [hempty] at this
    simpa using this
  have hclient : Subnet.client ∉ db2.subnetsOwnedByDb := by
    rw [howned]
    intro hmem
    obtain ⟨z, hz⟩ := hspec.2.1 Subnet.client hmem
    cases hz
  refine ⟨howned, hspec.2.1, hclient, ?_⟩
  intro exec w
  refine ⟨teardownNetworking_eq exec db2 w, ?_⟩
  intro hmem
  simp only [List.mem_cons, List.mem_map] at hmem
  rcases hmem with hmem | ⟨s, hs, hsc⟩
  · cases hmem
  · have hs2 : s = Subnet.client := Cmd.deleteSubnet.inj hsc
    exact hclient (hs2 ▸ hs)

theorem ownership_invariant_witness :
    networkedDb.subnetsOwnedByDb = [Subnet.created "us-east-1b"] :=
  (ownership_invariant (fun _ => true) ["us-east-1a", "us-east-1b"]
      "us-east-1a" preCreateManagedDb networkedDb
      [Subnet.created "us-east-1b"] networkSetupTrace rfl (by rfl)).1

/-! ## C9: `_FailoverHA` -/

/-- `AwsRelationalDb._FailoverHA`: for a plain RDS engine, reboot the
primary instance with `--force-failover`; for an Aurora engine, issue
`failover-db-cluster` targeting `all_instance_ids[1]` (Python raises
`IndexError` when fewer than two instances were recorded).  The method
reads the identifiers but never assigns any attribute: the object state it
leaves behind is the state it was given. -/
def failoverHA (db : DbState) : Except PkbError (List Cmd × DbState) :=
  if _RDS_ENGINES.contains db.engine then
    Except.ok ([Cmd.rebootForceFailover db.instanceId], db)
  else if _AURORA_ENGINES.contains db.engine then
    match db.allInstanceIds.get? 1 with
    | some newPrimaryId =>
        Except.ok ([Cmd.failoverDbCluster db.clusterId newPrimaryId], db)
    | none =>
        Except.error (PkbError.exception "IndexError: all_instance_ids")
  else Except.error (PkbError.exception "Unknown how to failover")

/-- Modelled from the spec: the controller-level failover operation (spec
section 4.3; the caller of `_FailoverHA` is not under `src/`) issues the
provider failover and then waits for the resource to again report ready
under the same `isReady` contract. -/
def controllerFailover (db : DbState)
    (dresp : String → Nat → DescribeResult) :
    Except PkbError (List Cmd × DbState) :=
  match failoverHA db with
  | Except.ok r =>
      if isReadyManaged r.2.allInstanceIds dresp IS_READY_TIMEOUT then
        Except.ok r
      else Except.error (PkbError.exception "TimeoutError")
  | Except.error e => Except.error e

/-- C9: for a clustered (Aurora) database whose instance ids were built by
`_CreateAwsSqlInstance` over at least two zones, failover targets
`all_instance_ids[1]` — an instance the database owns, different from the
writer `all_instance_ids[0] = instance_id` — and waits until the resource
again reports ready; it does not change the resource's identity: the
object it returns is exactly the one it was given, with the same
`instance_id`, `cluster_id` and `all_instance_ids`. -/
theorem failover_spec : ∀ (db : DbState)
    (dresp : String → Nat → DescribeResult) (z0 z1 : String)
    (rest : List String),
    _RDS_ENGINES.contains db.engine = false →
    _AURORA_ENGINES.contains db.engine = true →
    db.zones = z0 :: z1 :: rest →
    z1 ≠ z0 →
    db.allInstanceIds = auroraInstanceIds db.instanceId db.zones →
    isReadyManaged db.allInstanceIds dresp IS_READY_TIMEOUT = true →
    controllerFailover db dresp =
      Except.ok ([Cmd.failoverDbCluster db.clusterId
        (db.instanceId ++ "-" ++ z1)], db) ∧
    (db.instanceId ++ "-" ++ z1) ∈ db.allInstanceIds ∧
    db.allInstanceIds.get? 0 = some db.instanceId ∧
    (db.instanceId ++ "-" ++ z1) ≠ db.instanceId := by
  intro db dresp z0 z1 rest hrds haur hzones hz1 hids hready
  have htarget : db.allInstanceIds.get? 1 =
      some (db.instanceId ++ "-" ++ z1) := by
    rw [hids, hzones]
    simp [auroraInstanceIds, hz1]
  have hnotmem : db.engine ∉ _RDS_ENGINES := by simpa using hrds
  have hmem : db.engine ∈ _AURORA_ENGINES := by simpa using haur
  have hfo : failoverHA db =
      Except.ok ([Cmd.failoverDbCluster db.clusterId
        (db.instanceId ++ "-" ++ z1)], db) := by
    unfold failoverHA
    rw [if_neg (by simp [hnotmem]), if_pos (by simp [hmem]), htarget]
  have hne : (db.instanceId ++ "-" ++ z1) ≠ db.instanceId := by
    intro heq
    have hlen := congrArg String.length heq
    rw [String.length_append, String.length_append] at hlen
    have hdash : ("-" : String).length = 1 := rfl
    rw [hdash] at hlen
    omega
  refine ⟨?_, ?_, ?_, hne⟩
  · unfold controllerFailover
    rw [hfo]
    simp only []
    rw [if_pos hready]
  · rw [hids, hzones]
    unfold auroraInstanceIds
    refine List.mem_cons_of_mem _ ?_
    rw [List.mem_map]
    refine ⟨z1, List.mem_cons_self z1 rest, ?_⟩
    rw [if_neg hz1]
  · rw [hids, hzones]
    rfl

/-- A clustered high-availability Aurora database as `_CreateAwsSqlInstance`
leaves it. -/
def auroraHaDb : DbState :=
  { initialDb "run0" AURORA_MYSQL true ["us-east-1a", "us-east-1b"] true with
    clusterId := some "pkb-db-cluster-run0"
    allInstanceIds := auroraInstanceIds "pkb-db-instance-run0"
      ["us-east-1a", "us-east-1b"] }

theorem failover_spec_witness :
    controllerFailover auroraHaDb
        (fun _ _ => DescribeResult.status "available" false false) =
      Except.ok ([Cmd.failoverDbCluster auroraHaDb.clusterId
        (auroraHaDb.instanceId ++ "-" ++ "us-east-1b")], auroraHaDb) :=
  (failover_spec auroraHaDb
      (fun _ _ => DescribeResult.status "available" false false)
      "us-east-1a" "us-east-1b" [] (by decide) (by decide) rfl
      (by decide) rfl (by decide)).1

/-! ## C10: `GetDefaultPort` and the SQL Server engine variants -/

/-- C10: each of the three SQL Server variant engines (`sqlserver-ex`,
`sqlserver-se`, `sqlserver-ee`) is a supported RDS engine (member of
`_RDS_ENGINES`) with a default version in
`_MAP_ENGINE_TO_DEFAULT_VERSION` and a default port constant
(`DEFAULT_SQLSERVER_PORT = 1433`); yet `GetDefaultPort` compares the
engine only against the plain `SQLSERVER` constant, which none of the
variants equals, so it raises `RelationalDbEngineNotFoundError` instead of
returning the SQL Server port — and the unmanaged `_Create`, which calls
it to open the firewall port, propagates that error. -/
theorem sqlserver_default_port_gap :
    (∀ e ∈ _SQL_SERVER_ENGINES,
      e ∈ _RDS_ENGINES ∧
      _MAP_ENGINE_TO_DEFAULT_VERSION.lookup e =
        some DEFAULT_SQLSERVER_VERSION ∧
      e ≠ SQLSERVER ∧
      GetDefaultPort e = Except.error PkbError.relationalDbEngineNotFound) ∧
    DEFAULT_SQLSERVER_PORT = 1433 ∧
    awsCreate (initialDb "run0" SQLSERVER_EXPRESS false ["us-east-1a"]
        false) =
      Except.error PkbError.relationalDbEngineNotFound := by
  refine ⟨?_, rfl, rfl⟩
  intro e he
  simp only [_SQL_SERVER_ENGINES, List.mem_cons, List.not_mem_nil,
    or_false] at he
  rcases he with he | he | he
  · subst he
    exact ⟨by decide, rfl, by decide, rfl⟩
  · subst he
    exact ⟨by decide, rfl, by decide, rfl⟩
  · subst he
    exact ⟨by decide, rfl, by decide, rfl⟩

theorem sqlserver_default_port_gap_witness :
    GetDefaultPort SQLSERVER_EXPRESS =
      Except.error PkbError.relationalDbEngineNotFound :=
  (sqlserver_default_port_gap.1 SQLSERVER_EXPRESS (by decide)).2.2.2

end AwsRdb
